import Mathlib

/-!
# Verification of the highlight-on-copy plugin (src/main.ts)

Shallow embedding of the plugin's logic. The source file contains two
variants of the plugin (separated in src/main.ts); where their code
differs, the embedding carries both (suffix `A` for the first variant,
`B` for the second). DOM state (custom CSS properties, the root marker
class) and the timer machinery (`setTimeout` / `clearTimeout`) are made
explicit as record fields and absolute fire times.
-/

namespace HighlightOnCopy

/-- `interface HighlightOnCopySettings` from src/main.ts: three fields,
`duration` a millisecond count (a JS number; modelled as `Int` since
nothing in the code forces it non-negative). -/
structure HighlightOnCopySettings where
  backgroundColor : String
  foregroundColor : String
  duration : Int
deriving DecidableEq, Repr

/-- `DEFAULT_SETTINGS` of variant A (src/main.ts lines 16-20). -/
def DEFAULT_SETTINGS : HighlightOnCopySettings :=
  { backgroundColor := "rgba(0, 255, 0, 0.5)"
    foregroundColor := ""
    duration := 100 }

/-- `DEFAULT_SETTINGS` of variant B (lines 222-226): empty default
background, otherwise identical. -/
def DEFAULT_SETTINGS_B : HighlightOnCopySettings :=
  { backgroundColor := ""
    foregroundColor := ""
    duration := 100 }

/-- A persisted settings blob as `loadData()` returns it: each of the
three fields may be absent (`none`). An entirely absent blob is
`Option SettingsBlob`'s `none` at the call site. -/
structure SettingsBlob where
  backgroundColor : Option String
  foregroundColor : Option String
  duration : Option Int
deriving DecidableEq, Repr

/-- The blob with no fields present (an empty persisted object). -/
def emptyBlob : SettingsBlob := { backgroundColor := none, foregroundColor := none, duration := none }

/-- `Object.assign({}, defaults, data)` restricted to the three settings
fields: a present field of `data` overrides the default, an absent field
leaves the default. -/
def objectAssign (defaults : HighlightOnCopySettings) (data : SettingsBlob) :
    HighlightOnCopySettings :=
  { backgroundColor := data.backgroundColor.getD defaults.backgroundColor
    foregroundColor := data.foregroundColor.getD defaults.foregroundColor
    duration := data.duration.getD defaults.duration }

/-- `loadSettings()` (lines 69-75): shallow merge of the persisted blob
over the hardcoded defaults; `await this.loadData()` may yield nothing
(`none`), in which case `Object.assign` copies nothing over the defaults. -/
def loadSettings (data : Option SettingsBlob) : HighlightOnCopySettings :=
  objectAssign DEFAULT_SETTINGS (data.getD emptyBlob)

/-- Variant B `loadSettings()` (lines 267-273), identical code over
variant B's defaults. -/
def loadSettingsB (data : Option SettingsBlob) : HighlightOnCopySettings :=
  objectAssign DEFAULT_SETTINGS_B (data.getD emptyBlob)

/-! ## The settings panel's change handlers -/

/-- Whitespace skipped by JS `parseInt` (the common ASCII cases of the
StrWhiteSpace production: space, tab, LF, VT, FF, CR). -/
def isJsWhitespace (c : Char) : Bool :=
  c = ' ' ∨ c = Char.ofNat 9 ∨ c = Char.ofNat 10 ∨ c = Char.ofNat 11 ∨
    c = Char.ofNat 12 ∨ c = Char.ofNat 13

/-- Value of a decimal digit character, `none` for a non-digit. -/
def decDigitVal (c : Char) : Option Int :=
  if '0' ≤ c ∧ c ≤ '9' then some ((c.toNat : Int) - 48) else none

/-- Value of a hexadecimal digit character, `none` otherwise. -/
def hexDigitVal (c : Char) : Option Int :=
  if '0' ≤ c ∧ c ≤ '9' then some ((c.toNat : Int) - 48)
  else if 'a' ≤ c ∧ c ≤ 'f' then some ((c.toNat : Int) - 87)
  else if 'A' ≤ c ∧ c ≤ 'F' then some ((c.toNat : Int) - 55)
  else none

/-- Accumulate digit values left to right, stopping at the first
character that is not a digit for `val` (JS `parseInt` ignores the
trailing garbage). -/
def parseDigitsWith (val : Char → Option Int) (base : Int) : Int → List Char → Int
  | acc, [] => acc
  | acc, c :: cs =>
    match val c with
    | some v => parseDigitsWith val base (acc * base + v) cs
    | none => acc

/-- `NaN` (`none`) unless the first character is a digit for `val`;
otherwise the value of the longest digit run. -/
def parseUnsigned (val : Char → Option Int) (base : Int) (cs : List Char) : Option Int :=
  match cs with
  | [] => none
  | c :: _ => if (val c).isSome then some (parseDigitsWith val base 0 cs) else none

/-- Strip one optional leading sign, returning the sign factor. -/
def stripSign (cs : List Char) : Int × List Char :=
  match cs with
  | [] => ((1 : Int), cs)
  | c :: rest => if c = '-' then (-1, rest) else if c = '+' then (1, rest) else (1, cs)

/-- Strip a `0x` / `0X` hex prefix if present. -/
def stripHex (cs : List Char) : Option (List Char) :=
  match cs with
  | c0 :: c1 :: rest => if c0 = '0' ∧ (c1 = 'x' ∨ c1 = 'X') then some rest else none
  | _ => none

/-- Parse the digit part after the sign has been stripped: a `0x`/`0X`
prefix selects hexadecimal, otherwise decimal. -/
def parseSigned (sc : Int × List Char) : Option Int :=
  match stripHex sc.2 with
  | some rest => (parseUnsigned hexDigitVal 16 rest).map (fun n => sc.1 * n)
  | none => (parseUnsigned decDigitVal 10 sc.2).map (fun n => sc.1 * n)

/-- JS `parseInt(v)` with no radix argument: skip leading whitespace,
take an optional sign, treat a `0x`/`0X` prefix as hexadecimal,
otherwise parse the longest leading decimal digit run; `none` models
`NaN` (no digits at all). -/
def parseIntJS (s : String) : Option Int :=
  parseSigned (stripSign (s.data.dropWhile isJsWhitespace))

/-- The duration field's `onChange` (lines 197-203 and, identically,
384-390): `const n = parseInt(v); duration = isNaN(n) ? DEFAULT_SETTINGS.duration : Math.max(0, n)`. -/
def durationOnChange (v : String) : Int :=
  match parseIntJS v with
  | none => DEFAULT_SETTINGS.duration
  | some n => max 0 n

/-- Settings state after submitting `v` in the duration field. -/
def settingsAfterDurationEdit (st : HighlightOnCopySettings) (v : String) :
    HighlightOnCopySettings :=
  { st with duration := durationOnChange v }

/-- Variant A background `onChange` (lines 168-172):
`backgroundColor = v || DEFAULT_SETTINGS.backgroundColor` — the empty
string is falsy, every other string is kept. -/
def backgroundOnChangeA (st : HighlightOnCopySettings) (v : String) :
    HighlightOnCopySettings :=
  { st with backgroundColor := if v = "" then DEFAULT_SETTINGS.backgroundColor else v }

/-- Variant B background `onChange` (lines 356-359): stores `v` verbatim. -/
def backgroundOnChangeB (st : HighlightOnCopySettings) (v : String) :
    HighlightOnCopySettings :=
  { st with backgroundColor := v }

/-- Foreground `onChange` (lines 184-187 and 371-374, identical): stores
`v` verbatim. -/
def foregroundOnChange (st : HighlightOnCopySettings) (v : String) :
    HighlightOnCopySettings :=
  { st with foregroundColor := v }

/-! ## The legacy (CM5) range highlighter -/

/-- A CodeMirror 5 document position: `line`, then `ch` (column). -/
structure CM5Pos where
  line : Int
  ch : Int
deriving DecidableEq, Repr

/-- One CM5 selection range: an `anchor`/`head` pair, in either order. -/
structure CM5Selection where
  anchor : CM5Pos
  head : CM5Pos
deriving DecidableEq, Repr

/-- The legacy `cm` handle as `handleCM5Highlight` probes it: whether a
`markText` method is present (truthy), and the result of
`listSelections()` (`none` when the method is absent / returns nothing). -/
structure CM5Editor where
  markText : Bool
  listSelections : Option (List CM5Selection)
deriving DecidableEq, Repr

/-- The Obsidian `Editor` handle as probed by `isCM6`: presence of a
`state` key and of a `cm` key (carrying the CM5 editor when present). -/
structure EditorHandle where
  hasState : Bool
  cm : Option CM5Editor
deriving DecidableEq, Repr

/-- `isCM6` (lines 117-119 and 304-306): `"state" in editor && !("cm" in editor)`. -/
def isCM6 (editor : EditorHandle) : Bool :=
  editor.hasState && editor.cm.isNone

/-- Document order on CM5 positions: line-major, then column. This is
the condition under which `handleCM5Highlight` swaps the endpoints
(with the roles of head and anchor as in the source). -/
def cm5Before (a b : CM5Pos) : Prop :=
  a.line < b.line ∨ (a.line = b.line ∧ a.ch < b.ch)

instance (a b : CM5Pos) : Decidable (cm5Before a b) := by
  unfold cm5Before; infer_instance

/-- A legacy marker as created by `cm.markText(from, to, ...)` together
with the absolute time at which its scheduled `marker.clear()` fires
(`window.setTimeout(() => marker.clear(), this.settings.duration)`). -/
structure LegacyMarker where
  «from» : CM5Pos
  «to» : CM5Pos
  clearAt : Nat
deriving DecidableEq, Repr

/-- `handleCM5Highlight` (lines 121-145 and, identically, 308-332),
invoked at absolute time `t` with configured duration `duration`:
returns the marker it creates (with its scheduled clear time), or
`none` on the early-return guards (`!cm?.markText`, `!sels?.length`). -/
def handleCM5Highlight (editor : EditorHandle) (duration t : Nat) : Option LegacyMarker :=
  match editor.cm with
  | none => none
  | some cm =>
    if !cm.markText then none
    else
      match cm.listSelections with
      | none => none
      | some [] => none
      | some (sel :: _) =>
        let p :=
          if cm5Before sel.head sel.anchor then (sel.head, sel.anchor)
          else (sel.anchor, sel.head)
        some { «from» := p.1, «to» := p.2, clearAt := t + duration }

/-! ## The copy event handler -/

/-- A markdown view's mode, as returned by `view.getMode()`. -/
inductive ViewMode
  | source
  | preview
deriving DecidableEq, Repr

/-- The active `MarkdownView` as `onCopy` consumes it: its mode and its
editor handle. `onCopy` receives `none` when
`getActiveViewOfType(MarkdownView)` finds no such view. -/
structure MarkdownViewModel where
  mode : ViewMode
  editor : EditorHandle
deriving DecidableEq, Repr

/-- The three live custom CSS properties on `document.documentElement`.
`none` means the property is not set (removed / never set); CSS then
falls back to the stylesheet's own value for it. -/
structure StyleProps where
  bg : Option String
  fg : Option String
  dur : Option String
deriving DecidableEq, Repr

/-- Observable DOM state the plugin mutates: the custom properties and
the `copy-highlight-active` class on the document root. -/
structure DomState where
  props : StyleProps
  markerActive : Bool
deriving DecidableEq, Repr

/-- Whole mutable plugin state. `setTimeout` returns a handle to a live
timer; clearing the handle stops that timer, while merely overwriting the
handle would not. So the state carries both the field `highlightTimeout`
(the handle the plugin stores, identified here by the absolute fire time
of the timer it references) and `liveReverts`, the fire times of every
scheduled revert callback that has been neither cleared nor fired yet.
`legacyMarkers` holds the legacy markers whose scheduled `clear()` has
not fired. -/
structure PluginState where
  highlightTimeout : Option Nat
  liveReverts : List Nat
  dom : DomState
  legacyMarkers : List LegacyMarker
deriving DecidableEq, Repr

/-- State right after `onload`: no pending timer, nothing set, no marker. -/
def initialState : PluginState :=
  { highlightTimeout := none
    liveReverts := []
    dom := { props := { bg := none, fg := none, dur := none }, markerActive := false }
    legacyMarkers := [] }

/-- Variant A's property writes in `onCopy` (lines 85-96): set `--hbg`
to the configured background verbatim, `--hfg` to the configured
foreground or `"inherit"` when it is falsy (empty), `--hdur` to the
duration with an `ms` suffix. -/
def setPropsA (s : HighlightOnCopySettings) (_props : StyleProps) : StyleProps :=
  { bg := some s.backgroundColor
    fg := some (if s.foregroundColor = "" then "inherit" else s.foregroundColor)
    dur := some (toString s.duration ++ "ms") }

/-- Variant B's `applyStyles` (lines 244-265): set each color property
when the configured value is truthy (nonempty) and remove it otherwise;
always set the duration property. -/
def applyStyles (s : HighlightOnCopySettings) (_props : StyleProps) : StyleProps :=
  { bg := if s.backgroundColor = "" then none else some s.backgroundColor
    fg := if s.foregroundColor = "" then none else some s.foregroundColor
    dur := some (toString s.duration ++ "ms") }

/-- The timer/marker/legacy tail shared verbatim by both variants'
`onCopy` (lines 98-114 and 285-301), run at absolute time `t`:
cancel the pending revert timer if there is one, add the root marker
class, schedule the new revert at `t + duration` (`setTimeout` clamps a
negative delay to zero, hence `Int.toNat`), then, when the view is in
source mode and the editor is not CM6, run the legacy highlighter. -/
def onCopyTail (s : HighlightOnCopySettings) (view : MarkdownViewModel) (t : Nat)
    (st : PluginState) (props : StyleProps) : PluginState :=
  -- `if (this.highlightTimeout !== null) window.clearTimeout(this.highlightTimeout)`:
  -- the timer the stored handle references is stopped before the new one
  -- is scheduled, so its callback can never fire afterwards.
  let liveReverts :=
    match st.highlightTimeout with
    | some f => st.liveReverts.erase f
    | none => st.liveReverts
  -- `document.documentElement.classList.add("copy-highlight-active")`
  let dom : DomState := { props := props, markerActive := true }
  -- `this.highlightTimeout = window.setTimeout(..., this.settings.duration)`
  let fire := t + s.duration.toNat
  let legacyMarkers :=
    if view.mode = ViewMode.source ∧ isCM6 view.editor = false then
      match handleCM5Highlight view.editor s.duration.toNat t with
      | some marker => st.legacyMarkers ++ [marker]
      | none => st.legacyMarkers
    else st.legacyMarkers
  { highlightTimeout := some fire
    liveReverts := liveReverts ++ [fire]
    dom := dom
    legacyMarkers := legacyMarkers }

/-- Variant A `onCopy` (lines 81-115): bail out when no markdown view is
active, otherwise write the custom properties and run the shared tail. -/
def onCopyA (s : HighlightOnCopySettings) (view : Option MarkdownViewModel) (t : Nat)
    (st : PluginState) : PluginState :=
  match view with
  | none => st
  | some v => onCopyTail s v t st (setPropsA s st.dom.props)

/-- Variant B `onCopy` (lines 279-302): identical to variant A's except
that it calls `applyStyles`. -/
def onCopyB (s : HighlightOnCopySettings) (view : Option MarkdownViewModel) (t : Nat)
    (st : PluginState) : PluginState :=
  match view with
  | none => st
  | some v => onCopyTail s v t st (applyStyles s st.dom.props)

/-- Fire every live revert timer due at or before time `t`. Each firing
callback removes the root marker class and nulls `highlightTimeout`
(`classList.remove(...); this.highlightTimeout = null`). Returns the new
state and the times at which the root marker class was removed. -/
def fireDue (t : Nat) (st : PluginState) : PluginState × List Nat :=
  let due := st.liveReverts.filter (fun f => decide (f ≤ t))
  let remaining := st.liveReverts.filter (fun f => decide (t < f))
  if due.isEmpty then (st, [])
  else
    ({ st with liveReverts := remaining, highlightTimeout := none,
               dom := { st.dom with markerActive := false } }, due)

/-- Run a sorted timeline of copy events (all with the same settings and
active view) through an `onCopy` function, collecting the times at which
the `copy-highlight-active` root marker is removed: timers due before an
event fire first; after the last event every still-live revert timer
eventually fires. -/
def markerRemovalTimes (onCopyFn : Nat → PluginState → PluginState) :
    List Nat → PluginState → List Nat
  | [], st => st.liveReverts
  | t :: rest, st =>
    let fired := fireDue t st
    fired.2 ++ markerRemovalTimes onCopyFn rest (onCopyFn t fired.1)

/-! ## Decimal text of a natural number

The claims quantify over "submitting a non-negative integer `d` as
duration text"; `decimalRepr d` is that text (most significant digit
first, no sign, no padding). Fuel-based so it is structurally recursive
and evaluates by `rfl`. -/

/-- Build the digits of `n`, with `fuel` bounding the recursion depth
(`fuel > n` suffices since `n / 10 < n` for `n ≥ 10`). -/
def decimalReprAux : Nat → Nat → List Char
  | 0, _ => []
  | fuel + 1, n =>
    if n < 10 then [Char.ofNat (48 + n)]
    else decimalReprAux fuel (n / 10) ++ [Char.ofNat (48 + n % 10)]

/-- The decimal digit string of `n`. -/
def decimalRepr (n : Nat) : List Char := decimalReprAux (n + 1) n

lemma digitChar_facts (m : Nat) (h : m < 10) :
    decDigitVal (Char.ofNat (48 + m)) = some (m : Int) ∧
    isJsWhitespace (Char.ofNat (48 + m)) = false ∧
    Char.ofNat (48 + m) ≠ '-' ∧ Char.ofNat (48 + m) ≠ '+' ∧
    Char.ofNat (48 + m) ≠ 'x' ∧ Char.ofNat (48 + m) ≠ 'X' := by
  interval_cases m <;>
    exact ⟨by decide, by decide, by decide, by decide, by decide, by decide⟩

/-- Every character `decimalReprAux` emits is a digit character. -/
lemma decimalReprAux_digits :
    ∀ (fuel n : Nat), n < fuel →
      ∀ c ∈ decimalReprAux fuel n, ∃ m : Nat, m < 10 ∧ c = Char.ofNat (48 + m) := by
  intro fuel
  induction fuel with
  | zero => intro n hn; omega
  | succ fuel ih =>
    intro n hn c hc
    by_cases h10 : n < 10
    · simp only [decimalReprAux, if_pos h10, List.mem_singleton] at hc
      exact ⟨n, h10, hc⟩
    · simp only [decimalReprAux, if_neg h10, List.mem_append, List.mem_singleton] at hc
      rcases hc with hc | hc
      · exact ih (n / 10) (by omega) c hc
      · exact ⟨n % 10, by omega, hc⟩

/-- `decimalReprAux` never returns the empty list. -/
lemma decimalReprAux_ne_nil (fuel n : Nat) (h : n < fuel) :
    decimalReprAux fuel n ≠ [] := by
  cases fuel with
  | zero => omega
  | succ fuel =>
    by_cases h10 : n < 10 <;> simp [decimalReprAux, h10]

/-- Folding digits distributes over append while every leading character
is a digit. -/
lemma parseDigitsWith_append (l1 l2 : List Char) :
    ∀ acc : Int, (∀ c ∈ l1, (decDigitVal c).isSome) →
      parseDigitsWith decDigitVal 10 acc (l1 ++ l2) =
        parseDigitsWith decDigitVal 10 (parseDigitsWith decDigitVal 10 acc l1) l2 := by
  induction l1 with
  | nil => intro acc _; rfl
  | cons c l1 ih =>
    intro acc hall
    have hc : (decDigitVal c).isSome := hall c (List.mem_cons_self c l1)
    rcases Option.isSome_iff_exists.mp hc with ⟨v, hv⟩
    simp only [List.cons_append, parseDigitsWith, hv]
    exact ih (acc * 10 + v) (fun x hx => hall x (List.mem_cons_of_mem c hx))

/-- Value of the digit fold over `decimalReprAux fuel n`. -/
lemma parseDigitsWith_decimalReprAux :
    ∀ (fuel n : Nat), n < fuel → ∀ acc : Int,
      parseDigitsWith decDigitVal 10 acc (decimalReprAux fuel n) =
        acc * 10 ^ (decimalReprAux fuel n).length + n := by
  intro fuel
  induction fuel with
  | zero => intro n hn; omega
  | succ fuel ih =>
    intro n hn acc
    by_cases h10 : n < 10
    · have hd := (digitChar_facts n h10).1
      simp only [decimalReprAux, if_pos h10, parseDigitsWith, hd, List.length_singleton]
      ring
    · have hrec : n / 10 < fuel := by omega
      have hall : ∀ c ∈ decimalReprAux fuel (n / 10), (decDigitVal c).isSome := by
        intro c hc
        rcases decimalReprAux_digits fuel (n / 10) hrec c hc with ⟨m, hm, rfl⟩
        simp [(digitChar_facts m hm).1]
      have hd := (digitChar_facts (n % 10) (by omega)).1
      simp only [decimalReprAux, if_neg h10,
        parseDigitsWith_append _ _ acc hall, ih (n / 10) hrec acc,
        parseDigitsWith, hd, List.length_append, List.length_singleton]
      have hmod : (n : Int) = (n / 10 : Nat) * 10 + (n % 10 : Nat) := by
        push_cast; omega
      rw [pow_succ]
      rw [hmod]
      ring

/-- `parseIntJS` round-trips the decimal text of a natural number. -/
lemma parseIntJS_decimalRepr (d : Nat) :
    parseIntJS (String.mk (decimalRepr d)) = some (d : Int) := by
  have hd : d < d + 1 := Nat.lt_succ_self d
  have hdigits := decimalReprAux_digits (d + 1) d hd
  obtain ⟨c, cs, hcons⟩ : ∃ c cs, decimalRepr d = c :: cs := by
    cases h : decimalRepr d with
    | nil => exact absurd h (decimalReprAux_ne_nil (d + 1) d hd)
    | cons c cs => exact ⟨c, cs, rfl⟩
  have hmem : ∀ x ∈ c :: cs, ∃ m : Nat, m < 10 ∧ x = Char.ofNat (48 + m) := by
    intro x hx
    exact hdigits x (by rw [show decimalReprAux (d + 1) d = decimalRepr d from rfl, hcons]; exact hx)
  rcases hmem c (List.mem_cons_self c cs) with ⟨m, hm, hcm⟩
  have hfacts := digitChar_facts m hm
  have hstep1 : parseIntJS (String.mk (decimalRepr d)) =
      parseSigned (stripSign ((c :: cs).dropWhile isJsWhitespace)) := by
    rw [show parseIntJS (String.mk (decimalRepr d)) =
      parseSigned (stripSign ((String.mk (decimalRepr d)).data.dropWhile isJsWhitespace)) from rfl]
    rw [show (String.mk (decimalRepr d)).data = decimalRepr d from rfl, hcons]
  have hws : isJsWhitespace c = false := by rw [hcm]; exact hfacts.2.1
  have hdrop : (c :: cs).dropWhile isJsWhitespace = c :: cs := by
    rw [List.dropWhile_cons, hws]
    simp
  have hsign : stripSign (c :: cs) = (1, c :: cs) := by
    rw [show stripSign (c :: cs) =
      (if c = '-' then ((-1 : Int), cs) else if c = '+' then (1, cs) else (1, c :: cs)) from rfl]
    rw [hcm, if_neg hfacts.2.2.1, if_neg hfacts.2.2.2.1]
  have hhex : stripHex (c :: cs) = none := by
    cases cs with
    | nil => rfl
    | cons c1 cs' =>
      rcases hmem c1 (List.mem_cons_of_mem c (List.mem_cons_self c1 cs')) with ⟨m1, hm1, hcm1⟩
      have hfacts1 := digitChar_facts m1 hm1
      rw [show stripHex (c :: c1 :: cs') =
        (if c = '0' ∧ (c1 = 'x' ∨ c1 = 'X') then some cs' else none) from rfl]
      rw [if_neg]
      intro hcontra
      rcases hcontra.2 with hx | hx
      · exact hfacts1.2.2.2.2.1 (hcm1 ▸ hx)
      · exact hfacts1.2.2.2.2.2 (hcm1 ▸ hx)
  have hcval : decDigitVal c = some (m : Int) := by rw [hcm]; exact hfacts.1
  have hunsigned : parseUnsigned decDigitVal 10 (c :: cs) =
      some (parseDigitsWith decDigitVal 10 0 (c :: cs)) := by
    rw [show parseUnsigned decDigitVal 10 (c :: cs) =
      (if (decDigitVal c).isSome then some (parseDigitsWith decDigitVal 10 0 (c :: cs)) else none) from rfl]
    rw [hcval]
    rfl
  have hval := parseDigitsWith_decimalReprAux (d + 1) d hd 0
  rw [show decimalReprAux (d + 1) d = decimalRepr d from rfl, hcons] at hval
  rw [hstep1, hdrop, hsign]
  show (parseSigned (1, c :: cs)) = some (d : Int)
  rw [show parseSigned (1, c :: cs) =
    (match stripHex (c :: cs) with
     | some rest => (parseUnsigned hexDigitVal 16 rest).map (fun n => (1 : Int) * n)
     | none => (parseUnsigned decDigitVal 10 (c :: cs)).map (fun n => (1 : Int) * n)) from rfl]
  rw [hhex, hunsigned, hval]
  simp

/-! ## Claims about settings load and the settings panel -/

/-- Claim C4: settings load is a shallow merge with persisted values
winning per field: for every persisted blob, each field missing from the
blob comes out as the hardcoded default and each present field as the
persisted value; a missing (`none`) or empty blob yields pure defaults. -/
theorem loadSettings_shallow_merge :
    loadSettings none = DEFAULT_SETTINGS ∧
    loadSettings (some emptyBlob) = DEFAULT_SETTINGS ∧
    (∀ b : SettingsBlob,
      (b.backgroundColor = none →
        (loadSettings (some b)).backgroundColor = DEFAULT_SETTINGS.backgroundColor) ∧
      (∀ v, b.backgroundColor = some v → (loadSettings (some b)).backgroundColor = v) ∧
      (b.foregroundColor = none →
        (loadSettings (some b)).foregroundColor = DEFAULT_SETTINGS.foregroundColor) ∧
      (∀ v, b.foregroundColor = some v → (loadSettings (some b)).foregroundColor = v) ∧
      (b.duration = none → (loadSettings (some b)).duration = DEFAULT_SETTINGS.duration) ∧
      (∀ v, b.duration = some v → (loadSettings (some b)).duration = v)) := by
  refine ⟨rfl, rfl, fun b => ⟨?_, ?_, ?_, ?_, ?_, ?_⟩⟩ <;>
    first
      | (intro h; simp [loadSettings, objectAssign, h])
      | (intro v h; simp [loadSettings, objectAssign, h])

/-- Witness for C4 at a concrete blob with one present and two missing
fields. -/
theorem loadSettings_shallow_merge_witness :
    (loadSettings (some ⟨some "blue", none, none⟩)).backgroundColor = "blue" :=
  (loadSettings_shallow_merge.2.2 _).2.1 "blue" rfl

/-- Claim C5 counterexample: `loadSettings` does not enforce
`duration ≥ 0` — a persisted blob whose duration field is `-5` passes
through the shallow merge unvalidated. -/
theorem duration_invariant_counterexample :
    ¬ (0 ≤ (loadSettings (some ⟨none, none, some (-5)⟩)).duration) := by
  decide

/-- Claim C5 (amended): `duration ≥ 0` holds after every settings-panel
edit (duration edits always produce a non-negative value; color edits do
not touch the duration), and after `load()` whenever the persisted
duration field, if present, is non-negative; `load()` itself performs no
clamping. -/
theorem duration_invariant_amended :
    (∀ (st : HighlightOnCopySettings) (v : String),
      0 ≤ (settingsAfterDurationEdit st v).duration) ∧
    (∀ (st : HighlightOnCopySettings) (v : String),
      (backgroundOnChangeA st v).duration = st.duration) ∧
    (∀ (st : HighlightOnCopySettings) (v : String),
      (backgroundOnChangeB st v).duration = st.duration) ∧
    (∀ (st : HighlightOnCopySettings) (v : String),
      (foregroundOnChange st v).duration = st.duration) ∧
    (∀ data : Option SettingsBlob,
      (∀ d, (data.getD emptyBlob).duration = some d → 0 ≤ d) →
      0 ≤ (loadSettings data).duration) := by
  refine ⟨?_, fun _ _ => rfl, fun _ _ => rfl, fun _ _ => rfl, ?_⟩
  · intro st v
    show 0 ≤ durationOnChange v
    unfold durationOnChange
    cases parseIntJS v with
    | none => decide
    | some n => exact le_max_left 0 n
  · intro data h
    show 0 ≤ ((data.getD emptyBlob).duration.getD DEFAULT_SETTINGS.duration)
    cases hd : (data.getD emptyBlob).duration with
    | none => decide
    | some d => simpa using h d hd

/-- Witness for C5 (amended) at concrete inputs: an unparsable duration
edit and a load of a blob with non-negative persisted duration. -/
theorem duration_invariant_amended_witness :
    0 ≤ (settingsAfterDurationEdit DEFAULT_SETTINGS "oops").duration ∧
    0 ≤ (loadSettings (some ⟨none, none, some 7⟩)).duration :=
  ⟨duration_invariant_amended.1 DEFAULT_SETTINGS "oops",
   duration_invariant_amended.2.2.2.2 _ (fun d h => by simp at h; omega)⟩

/-- Claim C6: the duration field's text is parsed as an integer; a string
parsing to `n` stores `max 0 n` (so the decimal text of any `d : ℕ`
stores `d`); a string that fails to parse stores the hardcoded default. -/
theorem duration_edit_semantics :
    (∀ (st : HighlightOnCopySettings) (v : String) (n : Int), parseIntJS v = some n →
      (settingsAfterDurationEdit st v).duration = max 0 n) ∧
    (∀ (st : HighlightOnCopySettings) (v : String), parseIntJS v = none →
      (settingsAfterDurationEdit st v).duration = DEFAULT_SETTINGS.duration) ∧
    (∀ (st : HighlightOnCopySettings) (d : Nat),
      (settingsAfterDurationEdit st (String.mk (decimalRepr d))).duration = (d : Int)) := by
  refine ⟨?_, ?_, ?_⟩
  · intro st v n h
    show durationOnChange v = max 0 n
    simp only [durationOnChange, h]
  · intro st v h
    show durationOnChange v = DEFAULT_SETTINGS.duration
    simp only [durationOnChange, h]
  · intro st d
    show durationOnChange (String.mk (decimalRepr d)) = (d : Int)
    simp only [durationOnChange, parseIntJS_decimalRepr]
    simp

/-- Witness for C6 at the concrete string `"42"`. -/
theorem duration_edit_semantics_witness :
    (settingsAfterDurationEdit DEFAULT_SETTINGS "42").duration = max 0 42 :=
  duration_edit_semantics.1 DEFAULT_SETTINGS "42" 42 (by decide)

/-- Claim C7 counterexample: with prior duration `500`, submitting the
unparsable string `"abc"` stores the default `100`, not the prior value
— the stored duration does not remain unchanged. -/
theorem duration_unchanged_counterexample :
    (settingsAfterDurationEdit ⟨"", "", 500⟩ "abc").duration ≠ 500 := by
  decide

/-- Claim C7 (amended): a string that fails to parse resets the stored
duration to the hardcoded default constant regardless of any prior
value, and a string parsing to a negative integer stores `0` (also not
the prior value). -/
theorem duration_parse_failure_resets_default :
    (∀ (st : HighlightOnCopySettings) (v : String), parseIntJS v = none →
      (settingsAfterDurationEdit st v).duration = DEFAULT_SETTINGS.duration) ∧
    (∀ (st : HighlightOnCopySettings) (v : String) (n : Int), parseIntJS v = some n → n < 0 →
      (settingsAfterDurationEdit st v).duration = 0) := by
  constructor
  · intro st v h
    show durationOnChange v = DEFAULT_SETTINGS.duration
    simp only [durationOnChange, h]
  · intro st v n h hneg
    show durationOnChange v = 0
    simp only [durationOnChange, h]
    omega

/-- Witness for C7 (amended) at the concrete strings `"abc"` and `"-7"`. -/
theorem duration_parse_failure_resets_default_witness :
    (settingsAfterDurationEdit DEFAULT_SETTINGS "abc").duration = DEFAULT_SETTINGS.duration ∧
    (settingsAfterDurationEdit DEFAULT_SETTINGS "-7").duration = 0 :=
  ⟨duration_parse_failure_resets_default.1 DEFAULT_SETTINGS "abc" (by decide),
   duration_parse_failure_resets_default.2 DEFAULT_SETTINGS "-7" (-7) (by decide) (by decide)⟩

/-- Claim C8 counterexample: variant A's background field does not store
the empty string verbatim — `v || DEFAULT_SETTINGS.backgroundColor`
replaces it with the default. -/
theorem color_verbatim_counterexample :
    (backgroundOnChangeA DEFAULT_SETTINGS "").backgroundColor ≠ "" := by
  decide

/-- Claim C8 (amended): the foreground field (both variants) and variant
B's background field store every submitted string verbatim, including
the empty string; variant A's background field stores every nonempty
string verbatim but substitutes the hardcoded default for the empty
string. -/
theorem color_fields_storage :
    (∀ (st : HighlightOnCopySettings) (v : String),
      (foregroundOnChange st v).foregroundColor = v) ∧
    (∀ (st : HighlightOnCopySettings) (v : String),
      (backgroundOnChangeB st v).backgroundColor = v) ∧
    (∀ (st : HighlightOnCopySettings) (v : String), v ≠ "" →
      (backgroundOnChangeA st v).backgroundColor = v) ∧
    (∀ st : HighlightOnCopySettings,
      (backgroundOnChangeA st "").backgroundColor = DEFAULT_SETTINGS.backgroundColor) := by
  refine ⟨fun _ _ => rfl, fun _ _ => rfl, ?_, fun st => rfl⟩
  intro st v h
  show (if v = "" then DEFAULT_SETTINGS.backgroundColor else v) = v
  rw [if_neg h]

/-- Witness for C8 (amended) at the concrete string `"blue"`. -/
theorem color_fields_storage_witness :
    (backgroundOnChangeA DEFAULT_SETTINGS "blue").backgroundColor = "blue" :=
  color_fields_storage.2.2.1 DEFAULT_SETTINGS "blue" (by decide)

/-! ## Claims about the legacy range highlighter -/

lemma cm5Before_asymm {a b : CM5Pos} (h : cm5Before a b) : ¬ cm5Before b a := by
  intro h'
  rcases h with h | ⟨he, hc⟩ <;> rcases h' with h' | ⟨he', hc'⟩ <;> omega

lemma cm5Before_irrefl (a : CM5Pos) : ¬ cm5Before a a := by
  intro h
  rcases h with h | ⟨_, hc⟩ <;> omega

/-- Claim C3: for positions `a` earlier than `b` in document order, the
legacy highlighter normalizes the selection `(anchor = a, head = b)` and
the reversed selection `(anchor = b, head = a)` to the same marked range
`(from = a, to = b)`. -/
theorem legacy_normalization_symmetric :
    ∀ (a b : CM5Pos), cm5Before a b →
      ∀ (hasState : Bool) (rest : List CM5Selection) (duration t : Nat),
        handleCM5Highlight ⟨hasState, some ⟨true, some (⟨a, b⟩ :: rest)⟩⟩ duration t =
          some ⟨a, b, t + duration⟩ ∧
        handleCM5Highlight ⟨hasState, some ⟨true, some (⟨b, a⟩ :: rest)⟩⟩ duration t =
          some ⟨a, b, t + duration⟩ := by
  intro a b hab hs rest d t
  constructor
  · rw [show handleCM5Highlight ⟨hs, some ⟨true, some (⟨a, b⟩ :: rest)⟩⟩ d t =
      some ⟨(if cm5Before b a then (b, a) else (a, b)).1,
            (if cm5Before b a then (b, a) else (a, b)).2, t + d⟩ from rfl]
    rw [if_neg (cm5Before_asymm hab)]
  · rw [show handleCM5Highlight ⟨hs, some ⟨true, some (⟨b, a⟩ :: rest)⟩⟩ d t =
      some ⟨(if cm5Before a b then (a, b) else (b, a)).1,
            (if cm5Before a b then (a, b) else (b, a)).2, t + d⟩ from rfl]
    rw [if_pos hab]

/-- Witness for C3 at `a = {line 1, ch 3}`, `b = {line 2, ch 5}` (the
spec's reversed-selection scenario). -/
theorem legacy_normalization_symmetric_witness :
    handleCM5Highlight ⟨true, some ⟨true, some [⟨⟨2, 5⟩, ⟨1, 3⟩⟩]⟩⟩ 100 0 =
      some ⟨⟨1, 3⟩, ⟨2, 5⟩, 0 + 100⟩ :=
  (legacy_normalization_symmetric ⟨1, 3⟩ ⟨2, 5⟩ (by decide) true [] 100 0).2

/-- Claim C10: the legacy highlighter's no-op guard fires exactly when
the `cm` handle is absent, lacks `markText`, or the selection list is
absent or empty; a collapsed first selection (anchor = head) still
produces a marker over the zero-width range with its removal scheduled
after the configured duration. -/
theorem legacy_noop_guard_and_collapsed :
    (∀ (editor : EditorHandle) (duration t : Nat),
      handleCM5Highlight editor duration t = none ↔
        (editor.cm = none ∨
         ∃ cm, editor.cm = some cm ∧
           (cm.markText = false ∨ cm.listSelections = none ∨ cm.listSelections = some []))) ∧
    (∀ (hasState : Bool) (p : CM5Pos) (rest : List CM5Selection) (duration t : Nat),
      handleCM5Highlight ⟨hasState, some ⟨true, some (⟨p, p⟩ :: rest)⟩⟩ duration t =
        some ⟨p, p, t + duration⟩) := by
  constructor
  · intro editor d t
    obtain ⟨hs, cmo⟩ := editor
    cases cmo with
    | none => simp [handleCM5Highlight]
    | some cmv =>
      obtain ⟨mt, sels⟩ := cmv
      cases mt with
      | false => simp [handleCM5Highlight]
      | true =>
        cases sels with
        | none => simp [handleCM5Highlight]
        | some l =>
          cases l with
          | nil => simp [handleCM5Highlight]
          | cons sel rest => simp [handleCM5Highlight]
  · intro hs p rest d t
    rw [show handleCM5Highlight ⟨hs, some ⟨true, some (⟨p, p⟩ :: rest)⟩⟩ d t =
      some ⟨(if cm5Before p p then (p, p) else (p, p)).1,
            (if cm5Before p p then (p, p) else (p, p)).2, t + d⟩ from rfl]
    rw [if_neg (cm5Before_irrefl p)]

/-- Witness for C10's guard direction at a concrete editor with an empty
selection list, and for the collapsed-selection case at a bare cursor. -/
theorem legacy_noop_guard_and_collapsed_witness :
    handleCM5Highlight ⟨false, some ⟨true, some []⟩⟩ 100 0 = none :=
  (legacy_noop_guard_and_collapsed.1 ⟨false, some ⟨true, some []⟩⟩ 100 0).mpr
    (Or.inr ⟨⟨true, some []⟩, rfl, Or.inr (Or.inr rfl)⟩)

/-- Claim C2: every successful legacy-highlighter invocation schedules
its marker's removal at invocation time plus the configured duration,
and no copy event ever removes or reschedules an existing legacy marker
timer: `onCopy` (either variant) only appends to the pending legacy
markers. -/
theorem legacy_timer_not_cancelled :
    (∀ (editor : EditorHandle) (duration t : Nat) (m : LegacyMarker),
      handleCM5Highlight editor duration t = some m → m.clearAt = t + duration) ∧
    (∀ (s : HighlightOnCopySettings) (view : Option MarkdownViewModel) (t : Nat)
       (st : PluginState),
      ∃ extra, (onCopyA s view t st).legacyMarkers = st.legacyMarkers ++ extra) ∧
    (∀ (s : HighlightOnCopySettings) (view : Option MarkdownViewModel) (t : Nat)
       (st : PluginState),
      ∃ extra, (onCopyB s view t st).legacyMarkers = st.legacyMarkers ++ extra) := by
  refine ⟨?_, ?_, ?_⟩
  · intro editor d t m h
    obtain ⟨hs, cmo⟩ := editor
    cases cmo with
    | none => simp [handleCM5Highlight] at h
    | some cmv =>
      obtain ⟨mt, sels⟩ := cmv
      cases mt with
      | false => simp [handleCM5Highlight] at h
      | true =>
        cases sels with
        | none => simp [handleCM5Highlight] at h
        | some l =>
          cases l with
          | nil => simp [handleCM5Highlight] at h
          | cons sel rest =>
            simp only [handleCM5Highlight, Bool.not_true, Bool.false_eq_true, if_false,
              Option.some.injEq] at h
            rw [← h]
  · intro s view t st
    cases view with
    | none => exact ⟨[], by simp [onCopyA]⟩
    | some v =>
      show ∃ extra, (onCopyTail s v t st (setPropsA s st.dom.props)).legacyMarkers =
        st.legacyMarkers ++ extra
      by_cases hc : v.mode = ViewMode.source ∧ isCM6 v.editor = false
      · cases hm : handleCM5Highlight v.editor s.duration.toNat t with
        | none => exact ⟨[], by simp [onCopyTail, hc, hm]⟩
        | some marker => exact ⟨[marker], by simp [onCopyTail, hc, hm]⟩
      · exact ⟨[], by simp [onCopyTail, hc]⟩
  · intro s view t st
    cases view with
    | none => exact ⟨[], by simp [onCopyB]⟩
    | some v =>
      show ∃ extra, (onCopyTail s v t st (applyStyles s st.dom.props)).legacyMarkers =
        st.legacyMarkers ++ extra
      by_cases hc : v.mode = ViewMode.source ∧ isCM6 v.editor = false
      · cases hm : handleCM5Highlight v.editor s.duration.toNat t with
        | none => exact ⟨[], by simp [onCopyTail, hc, hm]⟩
        | some marker => exact ⟨[marker], by simp [onCopyTail, hc, hm]⟩
      · exact ⟨[], by simp [onCopyTail, hc]⟩

/-- Witness for C2 at a concrete legacy invocation at `t = 30` with
duration `100`: the scheduled clear time is `130`. -/
theorem legacy_timer_not_cancelled_witness :
    (LegacyMarker.mk ⟨0, 0⟩ ⟨1, 2⟩ 130).clearAt = 30 + 100 :=
  legacy_timer_not_cancelled.1 ⟨false, some ⟨true, some [⟨⟨0, 0⟩, ⟨1, 2⟩⟩]⟩⟩ 100 30
    ⟨⟨0, 0⟩, ⟨1, 2⟩, 130⟩ (by decide)

/-! ## Claims about the copy handler's style writes and debounce -/

/-- Modelled from the spec: variant B ships its stylesheet outside src/
(only variant A injects one inline), and per the spec that stylesheet
defines the custom properties with fallback values, the foreground
falling back to inherit; so the effective foreground style parameter is
the property's value when set and `"inherit"` when the property has been
removed. -/
def effectiveFg (props : StyleProps) : String :=
  props.fg.getD "inherit"

/-- Claim C9: on every copy event with an eligible view active, the
handler writes the three live style parameters from the current
settings: variant A sets the background property to the configured
background, the foreground property to `"inherit"` exactly when the
configured foreground is empty, and the duration property to the
configured duration with an `ms` suffix; variant B sets the same
duration property, leaves the background property at the configured
value (or removed, deferring to the stylesheet default, when empty), and
its effective foreground parameter is likewise `"inherit"` exactly when
the configured foreground is empty. The last conjunct is the spec's
end-to-end scenario: duration `200` yields the string `"200ms"`. -/
theorem onCopy_sets_style_params :
    ∀ (s : HighlightOnCopySettings) (view : MarkdownViewModel) (t : Nat)
      (st st' : PluginState),
      ((onCopyA s (some view) t st).dom.props.bg = some s.backgroundColor ∧
       (onCopyA s (some view) t st).dom.props.fg =
         some (if s.foregroundColor = "" then "inherit" else s.foregroundColor) ∧
       (onCopyA s (some view) t st).dom.props.dur = some (toString s.duration ++ "ms")) ∧
      ((onCopyB s (some view) t st').dom.props.dur = some (toString s.duration ++ "ms") ∧
       effectiveFg (onCopyB s (some view) t st').dom.props =
         (if s.foregroundColor = "" then "inherit" else s.foregroundColor) ∧
       (onCopyB s (some view) t st').dom.props.bg =
         (if s.backgroundColor = "" then none else some s.backgroundColor)) ∧
      (onCopyA { backgroundColor := "red", foregroundColor := "", duration := 200 }
        (some view) t st).dom.props.dur = some "200ms" := by
  intro s view t st st'
  refine ⟨⟨rfl, rfl, rfl⟩, ⟨rfl, ?_, rfl⟩, rfl⟩
  show (applyStyles s st'.dom.props).fg.getD "inherit" =
    (if s.foregroundColor = "" then "inherit" else s.foregroundColor)
  show ((if s.foregroundColor = "" then none else some s.foregroundColor) :
    Option String).getD "inherit" = (if s.foregroundColor = "" then "inherit" else s.foregroundColor)
  by_cases h : s.foregroundColor = "" <;> simp [h]

/-- Claim C1: whenever a copy event arrives while the previous
highlight's revert timer is still pending, that timer is cancelled
before the new one is scheduled: two copies at `t1 ≤ t2` with
`t2` inside the first highlight's duration window make the root marker
class get removed exactly once, at `t2 + duration` — in both variants —
and the stored revert handle always ends up at the newest fire time. -/
theorem debounce_restarts_revert_timer :
    ∀ (s : HighlightOnCopySettings) (view : MarkdownViewModel) (t1 t2 : Nat),
      t1 ≤ t2 → t2 < t1 + s.duration.toNat →
      markerRemovalTimes (onCopyA s (some view)) [t1, t2] initialState =
        [t2 + s.duration.toNat] ∧
      markerRemovalTimes (onCopyB s (some view)) [t1, t2] initialState =
        [t2 + s.duration.toNat] ∧
      (∀ st : PluginState,
        (onCopyA s (some view) t2 st).highlightTimeout = some (t2 + s.duration.toNat) ∧
        (onCopyB s (some view) t2 st).highlightTimeout = some (t2 + s.duration.toNat)) := by
  intro s view t1 t2 h12 hwin
  have hnotdue : ¬ (t1 + s.duration.toNat ≤ t2) := by omega
  refine ⟨?_, ?_, fun st => ⟨rfl, rfl⟩⟩ <;>
    simp [markerRemovalTimes, fireDue, onCopyA, onCopyB, onCopyTail, initialState, hnotdue]

/-- Witness for C1 at the spec's concrete scenario: copies at `t = 0`
and `t = 50` with duration `100` remove the marker exactly once, at
`t = 150` (not at `100`). -/
theorem debounce_restarts_revert_timer_witness :
    markerRemovalTimes
      (onCopyA DEFAULT_SETTINGS (some ⟨ViewMode.preview, ⟨true, none⟩⟩)) [0, 50]
      initialState = [150] :=
  (debounce_restarts_revert_timer DEFAULT_SETTINGS ⟨ViewMode.preview, ⟨true, none⟩⟩ 0 50
    (by decide) (by decide)).1

end HighlightOnCopy
